import Mathlib

/-!
Verification of the computational core of a stock-analytics pipeline:
the per-ticker technical-indicator engine, the per-ticker risk-metric
engine and the trading-signal detector.

Numeric model: close prices and daily returns are rationals.  Where the
source's floating-point arithmetic can produce non-finite values (the
RSI ratio `gain / loss`), values are modelled by `PF`, a set of IEEE-754
special values (`nan`, `inf`, `ninf`) together with finite rationals.
An undefined ("NaN") entry of a derived column is `PF.nan`; every
comparison against it is false, as in the source's dataframe library.
-/

namespace StockAnalytics

/-- A floating-point value as produced by the dataframe library: a finite
number (modelled exactly as a rational), positive or negative infinity,
or NaN. -/
inductive PF where
  | nan : PF
  | inf : PF
  | ninf : PF
  | num : ℚ → PF
deriving DecidableEq, Repr

namespace PF

/-- Is the value a finite number (i.e. a defined, non-NaN, non-infinite entry)? -/
def isNum : PF → Bool
  | num _ => true
  | _ => false

/-- IEEE-style addition on `PF`. -/
def add : PF → PF → PF
  | nan, _ => nan
  | _, nan => nan
  | inf, ninf => nan
  | ninf, inf => nan
  | inf, _ => inf
  | _, inf => inf
  | ninf, _ => ninf
  | _, ninf => ninf
  | num a, num b => num (a + b)

/-- IEEE-style negation on `PF`. -/
def neg : PF → PF
  | nan => nan
  | inf => ninf
  | ninf => inf
  | num a => num (-a)

/-- IEEE-style subtraction on `PF`. -/
def sub (a b : PF) : PF := add a (neg b)

/-- IEEE-style division on `PF`.  Finite / 0 follows the source's float
semantics: `0 / 0 = NaN`, `x / 0 = ±inf` for `x ≠ 0`. -/
def div : PF → PF → PF
  | nan, _ => nan
  | _, nan => nan
  | inf, inf => nan
  | inf, ninf => nan
  | ninf, inf => nan
  | ninf, ninf => nan
  | inf, num b => if 0 ≤ b then inf else ninf
  | ninf, num b => if 0 ≤ b then ninf else inf
  | num _, inf => num 0
  | num _, ninf => num 0
  | num a, num b =>
      if b = 0 then (if a = 0 then nan else if 0 < a then inf else ninf)
      else num (a / b)

end PF

/-! ### Indicator engine (per ticker), from `_add_indicators`

The per-ticker close series is a `List ℚ`; derived columns are functions
of the series and a row index, valued in `PF` (with `PF.nan` on rows
where the source produces NaN). -/

/-- `close.rolling(window=w).mean()` at row `i` of a series with no NaN
entries: defined iff the trailing window of `w` rows exists, in which
case it is the arithmetic mean of those `w` values. -/
def rollingMean (w : ℕ) (xs : List ℚ) (i : ℕ) : PF :=
  if w ≤ i + 1 ∧ i < xs.length then
    PF.num ((((xs.drop (i + 1 - w)).take w).sum) / w)
  else PF.nan

/-- `close.rolling(window=n).mean()`: the simple moving average column
`sma_n` (the source uses n = 20, 50, 200). -/
def sma (n : ℕ) (close : List ℚ) (i : ℕ) : PF := rollingMean n close i

/-- The consecutive differences `close.diff()` of the close series,
without its leading NaN entry: element `i` is `close[i+1] - close[i]`. -/
def diffs (close : List ℚ) : List ℚ :=
  List.zipWith (fun p c => c - p) close close.tail

/-- `delta.where(delta > 0, 0)`: the gain series.  The leading NaN of
`diff()` compares false against 0, so the source replaces it by 0. -/
def gainSeries (close : List ℚ) : List ℚ :=
  match close with
  | [] => []
  | _ :: _ => 0 :: (diffs close).map (fun d => if 0 < d then d else 0)

/-- `-(delta.where(delta < 0, 0))`: the loss series (non-negative).  The
leading NaN of `diff()` compares false against 0, so it becomes 0. -/
def lossSeries (close : List ℚ) : List ℚ :=
  match close with
  | [] => []
  | _ :: _ => 0 :: (diffs close).map (fun d => if d < 0 then -d else 0)

/-- `gain`: the 14-bar rolling mean of the gain series. -/
def gain (close : List ℚ) (i : ℕ) : PF := rollingMean 14 (gainSeries close) i

/-- `loss`: the 14-bar rolling mean of the loss series. -/
def loss (close : List ℚ) (i : ℕ) : PF := rollingMean 14 (lossSeries close) i

/-- `rs = gain / loss`, with float division semantics. -/
def rs (close : List ℚ) (i : ℕ) : PF := PF.div (gain close i) (loss close i)

/-- `rsi_14 = 100 - (100 / (1 + rs))`, with float arithmetic semantics. -/
def rsi_14 (close : List ℚ) (i : ℕ) : PF :=
  PF.sub (PF.num 100) (PF.div (PF.num 100) (PF.add (PF.num 1) (rs close i)))

/-! ### Risk engine (per ticker), from `calculate_risk_metrics`

The per-ticker body of `calculate_risk_metrics` receives the ticker's
valid daily returns (`stock_returns = ...['daily_return'].dropna()`),
modelled as a `List ℚ`.  Standard deviations use `ddof = 1` (pandas
default); where pandas produces NaN (a standard deviation of a series
of length ≤ 1) the model uses `Option`. -/

/-- `RISK_FREE_RATE` from `config.py`. -/
def RISK_FREE_RATE : ℚ := 0.045

/-- `Series.mean()` of a rational series. -/
def listMean (xs : List ℚ) : ℚ := xs.sum / xs.length

/-- The square of `Series.std()` (sample variance, `ddof = 1`).  Exact
for series of length ≥ 2: all use sites guard the shorter series, where
pandas would produce NaN. -/
def sampleVar (xs : List ℚ) : ℚ :=
  ((xs.map (fun x => (x - listMean xs) ^ 2)).sum) / ((xs.length : ℚ) - 1)

/-- `ann_return = stock_returns.mean() * 252`. -/
def ann_return (rets : List ℚ) : ℚ := listMean rets * 252

/-- `ann_volatility = stock_returns.std() * np.sqrt(252)`. -/
noncomputable def ann_volatility (rets : List ℚ) : ℝ :=
  Real.sqrt (sampleVar rets) * Real.sqrt 252

/-- `excess_return = ann_return - RISK_FREE_RATE`. -/
def excess_return (rets : List ℚ) : ℚ := ann_return rets - RISK_FREE_RATE

/-- `sharpe = excess_return / ann_volatility if ann_volatility > 0 else 0`. -/
noncomputable def sharpe (rets : List ℚ) : ℝ :=
  if ann_volatility rets > 0 then (excess_return rets : ℝ) / ann_volatility rets
  else 0

/-- `downside_returns = stock_returns[stock_returns < 0]`. -/
def downside_returns (rets : List ℚ) : List ℚ := rets.filter (fun x => x < 0)

/-- `downside_std = downside_returns.std() * np.sqrt(252)`.  `none`
models the NaN that `Series.std()` (with `ddof = 1`) yields on a series
of length ≤ 1, which `* np.sqrt(252)` propagates. -/
noncomputable def downside_std (rets : List ℚ) : Option ℝ :=
  if 2 ≤ (downside_returns rets).length then
    some (Real.sqrt (sampleVar (downside_returns rets)) * Real.sqrt 252)
  else none

/-- `sortino = excess_return / downside_std if downside_std > 0 else 0`.
A NaN `downside_std` compares false against 0, so the source's
else-branch produces 0 in that case as well. -/
noncomputable def sortino (rets : List ℚ) : ℝ :=
  match downside_std rets with
  | some s => if s > 0 then (excess_return rets : ℝ) / s else 0
  | none => 0

/-- `cum_returns = (1 + stock_returns).cumprod()`. -/
def cum_returns (rets : List ℚ) : List ℚ :=
  ((rets.map (fun r => 1 + r)).scanl (· * ·) 1).tail

/-- Helper for `expanding().max()`: running maxima of a list, starting
from an already-seen maximum `m`. -/
def runningMaxAux (m : ℚ) : List ℚ → List ℚ
  | [] => []
  | x :: t => max m x :: runningMaxAux (max m x) t

/-- `cum_returns.expanding().max()`: the running maximum, current
element included. -/
def runningMax : List ℚ → List ℚ
  | [] => []
  | x :: t => x :: runningMaxAux x t

/-- `drawdown = (cum_returns - rolling_max) / rolling_max`, elementwise.
A zero running maximum would be a division by zero in the source (a
−100% cumulative return); the model maps it to 0.  No ticker with such
a return is considered in the claims below. -/
def drawdownSeries (rets : List ℚ) : List ℚ :=
  List.zipWith (fun c m => (c - m) / m) (cum_returns rets) (runningMax (cum_returns rets))

/-- `max_drawdown = drawdown.min()` (0 for an empty series, which the
length-30 guard of the caller excludes). -/
def max_drawdown (rets : List ℚ) : ℚ :=
  match drawdownSeries rets with
  | [] => 0
  | x :: t => t.foldl min x

/-- The series sorted ascending, as `Series.quantile` ranks it. -/
def sortedAsc (xs : List ℚ) : List ℚ := xs.mergeSort (fun a b => decide (a ≤ b))

/-- The interpolation position `h = (n - 1) * q` of `Series.quantile`. -/
def quantilePos (q : ℚ) (xs : List ℚ) : ℚ := ((xs.length : ℚ) - 1) * q

/-- The lower order statistic `s[⌊h⌋]` used by `Series.quantile`. -/
def quantileLo (q : ℚ) (xs : List ℚ) : ℚ :=
  (sortedAsc xs).getD (⌊quantilePos q xs⌋).toNat 0

/-- The upper order statistic `s[⌊h⌋ + 1]` used by `Series.quantile`
(falling back to the lower one at the top of the range). -/
def quantileHi (q : ℚ) (xs : List ℚ) : ℚ :=
  (sortedAsc xs).getD ((⌊quantilePos q xs⌋).toNat + 1) (quantileLo q xs)

/-- `Series.quantile(q)` with the default linear interpolation between
order statistics: with the series sorted ascending and
`h = (n - 1) * q`, the result is `s[⌊h⌋] + (h - ⌊h⌋) * (s[⌊h⌋+1] - s[⌊h⌋])`. -/
def quantile (q : ℚ) (xs : List ℚ) : ℚ :=
  quantileLo q xs +
    (quantilePos q xs - ((⌊quantilePos q xs⌋).toNat : ℚ)) *
      (quantileHi q xs - quantileLo q xs)

/-- `var_95 = stock_returns.quantile(0.05)`. -/
def var_95 (rets : List ℚ) : ℚ := quantile 0.05 rets

/-- Round a rational to `d` decimal places (`round(x, d)` in the source;
the model rounds exact half-way ties up rather than to even, a case no
claim exercises). -/
def roundQ (d : ℕ) (q : ℚ) : ℚ := (⌊q * 10 ^ d + 1 / 2⌋ : ℚ) / 10 ^ d

/-- Round a real to `d` decimal places (see `roundQ`). -/
noncomputable def roundR (d : ℕ) (x : ℝ) : ℝ := (⌊x * 10 ^ d + 1 / 2⌋ : ℝ) / 10 ^ d

/-- One row of the `risk_metrics` output table. -/
structure RiskRecord where
  sharpe_ratio : ℝ
  sortino_ratio : ℝ
  max_drawdown : ℚ
  var_95 : ℚ
  annualized_return : ℚ
  annualized_volatility : ℝ

/-- The per-ticker body of `calculate_risk_metrics`: given the ticker's
valid daily returns, skip the ticker (`none`) when fewer than 30 exist,
otherwise produce exactly one rounded record. -/
noncomputable def calculate_risk_metrics (rets : List ℚ) : Option RiskRecord :=
  if rets.length < 30 then none
  else some {
    sharpe_ratio := roundR 4 (sharpe rets)
    sortino_ratio := roundR 4 (sortino rets)
    max_drawdown := roundQ 6 (max_drawdown rets)
    var_95 := roundQ 6 (var_95 rets)
    annualized_return := roundQ 6 (ann_return rets)
    annualized_volatility := roundR 6 (ann_volatility rets) }

/-! ### Signal detector, from `generate_signals_for_ticker`

The detector reads, per ticker, the date-sorted indicator rows joined
with the close price.  Indicator columns are nullable (`Option ℚ`,
`none` = NaN); any comparison against NaN is false, and `pd.notna`
is `Option.isSome`. -/

/-- One date-sorted row of the `technical_indicators ⋈ stock_prices`
input of the signal detector.  `date` is an abstract day number. -/
structure IndRow where
  date : ℕ
  close : ℚ
  sma_50 : Option ℚ
  sma_200 : Option ℚ
  rsi_14 : Option ℚ
  macd : Option ℚ
  macd_signal : Option ℚ
  bb_upper : Option ℚ
  bb_lower : Option ℚ
deriving DecidableEq, Repr

/-- Float `<` on nullable values: false whenever either side is NaN. -/
def optLt (a b : Option ℚ) : Bool :=
  match a, b with
  | some x, some y => decide (x < y)
  | _, _ => false

/-- Float `≤` on nullable values: false whenever either side is NaN. -/
def optLe (a b : Option ℚ) : Bool :=
  match a, b with
  | some x, some y => decide (x ≤ y)
  | _, _ => false

inductive SigType where
  | GOLDEN_CROSS | DEATH_CROSS
  | RSI_OVERSOLD | RSI_OVERBOUGHT
  | MACD_BULLISH | MACD_BEARISH
  | BB_OVERSOLD | BB_OVERBOUGHT
  | NEUTRAL
deriving DecidableEq, Repr

inductive Strength where
  | STRONG | MEDIUM | WEAK | NEUTRAL
deriving DecidableEq, Repr

/-- One row of the `trading_signals` output table. -/
structure Signal where
  ticker : String
  signal_date : ℕ
  signal_type : SigType
  signal_strength : Strength
  description : String
deriving DecidableEq, Repr

/-- Render a non-negative count of digits after the decimal point, as
the source's `:.1f` / `:.2f` format specifiers do (rounding to nearest;
the model rounds exact half-way ties up — the source formats the
underlying binary float, and no claim exercises a tie). -/
def fmtFixed (d : ℕ) (q : ℚ) : String :=
  let n : ℤ := ⌊q * 10 ^ d + 1 / 2⌋
  let sign := if n < 0 then "-" else ""
  let m := n.natAbs
  let frac := toString (m % 10 ^ d)
  if d = 0 then sign ++ toString m
  else
    sign ++ toString (m / 10 ^ d) ++ "." ++
      String.mk (List.replicate (d - frac.length) '0') ++ frac

/-- Rule 1 condition: `latest.sma_50 > latest.sma_200 and
previous.sma_50 <= previous.sma_200`. -/
def goldenCond (latest previous : IndRow) : Bool :=
  optLt latest.sma_200 latest.sma_50 && optLe previous.sma_50 previous.sma_200

/-- Rule 2 condition: `latest.sma_50 < latest.sma_200 and
previous.sma_50 >= previous.sma_200`. -/
def deathCond (latest previous : IndRow) : Bool :=
  optLt latest.sma_50 latest.sma_200 && optLe previous.sma_200 previous.sma_50

/-- Rule 3 condition: `pd.notna(rsi) and rsi < 30`. -/
def rsiOversoldCond (latest : IndRow) : Bool :=
  latest.rsi_14.isSome && optLt latest.rsi_14 (some 30)

/-- Rule 4 condition: `pd.notna(rsi) and rsi > 70`. -/
def rsiOverboughtCond (latest : IndRow) : Bool :=
  latest.rsi_14.isSome && optLt (some 70) latest.rsi_14

/-- Rule 5 condition: MACD bullish crossover. -/
def macdBullishCond (latest previous : IndRow) : Bool :=
  latest.macd.isSome && latest.macd_signal.isSome &&
    optLt latest.macd_signal latest.macd && optLe previous.macd previous.macd_signal

/-- Rule 6 condition: MACD bearish crossover. -/
def macdBearishCond (latest previous : IndRow) : Bool :=
  latest.macd.isSome && latest.macd_signal.isSome &&
    optLt latest.macd latest.macd_signal && optLe previous.macd_signal previous.macd

/-- Rule 7 condition: `pd.notna(bb_lower) and close < bb_lower`. -/
def bbOversoldCond (latest : IndRow) : Bool :=
  latest.bb_lower.isSome && optLt (some latest.close) latest.bb_lower

/-- Rule 8 condition: `pd.notna(bb_upper) and close > bb_upper`. -/
def bbOverboughtCond (latest : IndRow) : Bool :=
  latest.bb_upper.isSome && optLt latest.bb_upper (some latest.close)

/-- The record appended by each firing rule (the NEUTRAL case included),
with the source's literal description strings. -/
def mkSignal (ticker : String) (latest : IndRow) : SigType → Signal
  | .GOLDEN_CROSS =>
    ⟨ticker, latest.date, .GOLDEN_CROSS, .STRONG,
      "SMA50 crossed above SMA200 - Strong bullish long-term signal"⟩
  | .DEATH_CROSS =>
    ⟨ticker, latest.date, .DEATH_CROSS, .STRONG,
      "SMA50 crossed below SMA200 - Strong bearish long-term signal"⟩
  | .RSI_OVERSOLD =>
    ⟨ticker, latest.date, .RSI_OVERSOLD, .MEDIUM,
      "RSI at " ++ fmtFixed 1 (latest.rsi_14.getD 0) ++
        " - Stock potentially oversold, consider buying"⟩
  | .RSI_OVERBOUGHT =>
    ⟨ticker, latest.date, .RSI_OVERBOUGHT, .MEDIUM,
      "RSI at " ++ fmtFixed 1 (latest.rsi_14.getD 0) ++
        " - Stock potentially overbought, consider selling"⟩
  | .MACD_BULLISH =>
    ⟨ticker, latest.date, .MACD_BULLISH, .MEDIUM,
      "MACD crossed above signal line - Bullish momentum building"⟩
  | .MACD_BEARISH =>
    ⟨ticker, latest.date, .MACD_BEARISH, .MEDIUM,
      "MACD crossed below signal line - Bearish momentum building"⟩
  | .BB_OVERSOLD =>
    ⟨ticker, latest.date, .BB_OVERSOLD, .WEAK,
      "Price (" ++ fmtFixed 2 latest.close ++
        ") below lower Bollinger Band - Potential bounce"⟩
  | .BB_OVERBOUGHT =>
    ⟨ticker, latest.date, .BB_OVERBOUGHT, .WEAK,
      "Price (" ++ fmtFixed 2 latest.close ++
        ") above upper Bollinger Band - Potential pullback"⟩
  | .NEUTRAL =>
    ⟨ticker, latest.date, .NEUTRAL, .NEUTRAL,
      "No significant technical signals detected"⟩

/-- The eight rule appends of `generate_signals_for_ticker`, in source
order, on the (latest, previous) pair of rows. -/
def ruleSignals (ticker : String) (latest previous : IndRow) : List Signal :=
  (if goldenCond latest previous then [mkSignal ticker latest .GOLDEN_CROSS] else []) ++
  (if deathCond latest previous then [mkSignal ticker latest .DEATH_CROSS] else []) ++
  (if rsiOversoldCond latest then [mkSignal ticker latest .RSI_OVERSOLD] else []) ++
  (if rsiOverboughtCond latest then [mkSignal ticker latest .RSI_OVERBOUGHT] else []) ++
  (if macdBullishCond latest previous then [mkSignal ticker latest .MACD_BULLISH] else []) ++
  (if macdBearishCond latest previous then [mkSignal ticker latest .MACD_BEARISH] else []) ++
  (if bbOversoldCond latest then [mkSignal ticker latest .BB_OVERSOLD] else []) ++
  (if bbOverboughtCond latest then [mkSignal ticker latest .BB_OVERBOUGHT] else [])

/-- `generate_signals_for_ticker`: given the ticker's date-sorted rows,
return `[]` when fewer than 2 rows exist; otherwise evaluate the eight
rules on the last two rows and synthesize one NEUTRAL record when none
fired. -/
def generate_signals_for_ticker (ticker : String) (rows : List IndRow) : List Signal :=
  match rows.reverse with
  | latest :: previous :: _ =>
    let signals := ruleSignals ticker latest previous
    if signals.isEmpty then [mkSignal ticker latest .NEUTRAL] else signals
  | _ => []

/-- Modelled from the spec: the fixed human-readable description template
of each rule (the table of §4.3), with the relevant numeric values
interpolated — the RSI value to one decimal place and the close price to
two decimal places (the source's `:.2f`). -/
def descrTemplate (l : IndRow) : SigType → String
  | .GOLDEN_CROSS => "SMA50 crossed above SMA200 - Strong bullish long-term signal"
  | .DEATH_CROSS => "SMA50 crossed below SMA200 - Strong bearish long-term signal"
  | .RSI_OVERSOLD =>
    "RSI at " ++ fmtFixed 1 (l.rsi_14.getD 0) ++ " - Stock potentially oversold, consider buying"
  | .RSI_OVERBOUGHT =>
    "RSI at " ++ fmtFixed 1 (l.rsi_14.getD 0) ++ " - Stock potentially overbought, consider selling"
  | .MACD_BULLISH => "MACD crossed above signal line - Bullish momentum building"
  | .MACD_BEARISH => "MACD crossed below signal line - Bearish momentum building"
  | .BB_OVERSOLD =>
    "Price (" ++ fmtFixed 2 l.close ++ ") below lower Bollinger Band - Potential bounce"
  | .BB_OVERBOUGHT =>
    "Price (" ++ fmtFixed 2 l.close ++ ") above upper Bollinger Band - Potential pullback"
  | .NEUTRAL => "No significant technical signals detected"

/-- Bookkeeping: the firing condition of each non-NEUTRAL signal type
(the NEUTRAL case is `false`: no rule emits a NEUTRAL record). -/
def condOf : SigType → IndRow → IndRow → Bool
  | .GOLDEN_CROSS, l, p => goldenCond l p
  | .DEATH_CROSS, l, p => deathCond l p
  | .RSI_OVERSOLD, l, _ => rsiOversoldCond l
  | .RSI_OVERBOUGHT, l, _ => rsiOverboughtCond l
  | .MACD_BULLISH, l, p => macdBullishCond l p
  | .MACD_BEARISH, l, p => macdBearishCond l p
  | .BB_OVERSOLD, l, _ => bbOversoldCond l
  | .BB_OVERBOUGHT, l, _ => bbOverboughtCond l
  | .NEUTRAL, _, _ => false

/-- A sample indicator row with every nullable column NaN. -/
def noRow : IndRow := ⟨0, 10, none, none, none, none, none, none, none⟩

/-- A sample latest row on which only the Bollinger oversold rule fires
(close 5.37 below the lower band 6). -/
def bbRow : IndRow := ⟨1, 537 / 100, none, none, none, none, none, none, some 6⟩

/-- A sample previous row with `sma_50 ≤ sma_200`. -/
def crossPrevRow : IndRow := ⟨0, 10, some 1, some 2, none, none, none, none, none⟩

/-- A sample latest row with `sma_50 > sma_200`. -/
def crossLatestRow : IndRow := ⟨1, 10, some 3, some 2, none, none, none, none, none⟩

end StockAnalytics

namespace StockAnalytics

/-! ### Helper lemmas -/

/-- Rounding preserves an exact zero. -/
theorem roundR_zero (d : ℕ) : roundR d 0 = 0 := by
  unfold roundR
  norm_num

/-- Every entry of the gain series is non-negative. -/
theorem gainSeries_nonneg (close : List ℚ) : ∀ x ∈ gainSeries close, 0 ≤ x := by
  intro x hx
  cases close with
  | nil => simp [gainSeries] at hx
  | cons a t =>
    simp only [gainSeries, List.mem_cons, List.mem_map] at hx
    rcases hx with rfl | ⟨d, _, rfl⟩
    · exact le_rfl
    · split_ifs with h
      · linarith
      · exact le_rfl

/-- Every entry of the loss series is non-negative. -/
theorem lossSeries_nonneg (close : List ℚ) : ∀ x ∈ lossSeries close, 0 ≤ x := by
  intro x hx
  cases close with
  | nil => simp [lossSeries] at hx
  | cons a t =>
    simp only [lossSeries, List.mem_cons, List.mem_map] at hx
    rcases hx with rfl | ⟨d, _, rfl⟩
    · exact le_rfl
    · split_ifs with h
      · linarith
      · exact le_rfl

/-- A rolling mean is either NaN or a finite number. -/
theorem rollingMean_cases (w : ℕ) (xs : List ℚ) (i : ℕ) :
    rollingMean w xs i = PF.nan ∨ ∃ v, rollingMean w xs i = PF.num v := by
  unfold rollingMean
  split
  · exact Or.inr ⟨_, rfl⟩
  · exact Or.inl rfl

/-- A defined rolling mean of a series of non-negative values is
non-negative. -/
theorem rollingMean_num_nonneg (w : ℕ) (xs : List ℚ) (i : ℕ) (v : ℚ)
    (hx : ∀ x ∈ xs, 0 ≤ x) (h : rollingMean w xs i = PF.num v) : 0 ≤ v := by
  unfold rollingMean at h
  split at h
  · injection h with hv
    rw [← hv]
    apply div_nonneg
    · apply List.sum_nonneg
      intro x hx'
      exact hx x (List.mem_of_mem_drop (List.mem_of_mem_take hx'))
    · exact Nat.cast_nonneg w
  · exact PF.noConfusion h

/-! ### Claim theorems: indicator and risk engines -/

/-- C3: for every ticker close series and every n ∈ {20, 50, 200}, the
`sma_n` value at row `i` of the indicator table is defined iff at least
`n` bars up to and including row `i` exist; with insufficient history it
is NaN (undefined), not zero and not an error. -/
theorem sma_defined_iff_window (n : ℕ) (close : List ℚ) (i : ℕ)
    (_hn : n = 20 ∨ n = 50 ∨ n = 200) (hi : i < close.length) :
    ((sma n close i).isNum = true ↔ n ≤ i + 1) ∧
      (i + 1 < n → sma n close i = PF.nan) := by
  unfold sma rollingMean
  constructor
  · split_ifs with h
    · simp [PF.isNum, h.1]
    · rw [not_and_or] at h
      rcases h with h | h
      · simp [PF.isNum, h]
      · exact absurd hi h
  · intro hlt
    rw [if_neg]
    rintro ⟨h1, -⟩
    omega

/-- Witness for `sma_defined_iff_window` at n = 20 on a 25-bar series:
at row 10, fewer than 20 bars exist, so `sma_20` is NaN. -/
theorem sma_defined_iff_window_witness :
    ((sma 20 (List.replicate 25 (1 : ℚ)) 10).isNum = true ↔ 20 ≤ 10 + 1) ∧
      (10 + 1 < 20 → sma 20 (List.replicate 25 (1 : ℚ)) 10 = PF.nan) :=
  sma_defined_iff_window 20 (List.replicate 25 (1 : ℚ)) 10 (Or.inl rfl) (by decide)

/-- C4: the risk engine produces exactly one record for a ticker with at
least 30 valid daily returns and no record at all with 29 or fewer. -/
theorem risk_record_iff_thirty (rets : List ℚ) :
    (rets.length ≤ 29 → calculate_risk_metrics rets = none) ∧
      (30 ≤ rets.length → ∃ r, calculate_risk_metrics rets = some r) := by
  unfold calculate_risk_metrics
  constructor
  · intro h
    rw [if_pos (by omega)]
  · intro h
    rw [if_neg (by omega)]
    exact ⟨_, rfl⟩

/-- Witness for `risk_record_iff_thirty`: 29 equal returns produce no
record, 30 produce one. -/
theorem risk_record_iff_thirty_witness :
    calculate_risk_metrics (List.replicate 29 (1 / 100 : ℚ)) = none ∧
      ∃ r, calculate_risk_metrics (List.replicate 30 (1 / 100 : ℚ)) = some r :=
  ⟨(risk_record_iff_thirty _).1 (by decide), (risk_record_iff_thirty _).2 (by decide)⟩

/-- C10: for a ticker processed by the risk engine whose return series
has at most one negative return, the downside standard deviation is NaN
(`none`), and the reported sortino_ratio is 0: the zero fallback also
fires when the denominator is undefined. -/
theorem sortino_zero_when_downside_undefined (rets : List ℚ)
    (h30 : 30 ≤ rets.length) (h1 : (downside_returns rets).length ≤ 1) :
    downside_std rets = none ∧ sortino rets = 0 ∧
      ∃ r, calculate_risk_metrics rets = some r ∧ r.sortino_ratio = 0 := by
  have hstd : downside_std rets = none := by
    unfold downside_std
    rw [if_neg (by omega)]
  have hsort : sortino rets = 0 := by
    unfold sortino
    rw [hstd]
  refine ⟨hstd, hsort, ?_⟩
  unfold calculate_risk_metrics
  rw [if_neg (by omega)]
  refine ⟨_, rfl, ?_⟩
  show roundR 4 (sortino rets) = 0
  rw [hsort, roundR_zero]

/-- Witness for `sortino_zero_when_downside_undefined`: 30 identical
positive returns have no negative return at all. -/
theorem sortino_zero_when_downside_undefined_witness :
    downside_std (List.replicate 30 (1 / 100 : ℚ)) = none ∧
      sortino (List.replicate 30 (1 / 100 : ℚ)) = 0 ∧
      ∃ r, calculate_risk_metrics (List.replicate 30 (1 / 100 : ℚ)) = some r ∧
        r.sortino_ratio = 0 :=
  sortino_zero_when_downside_undefined _ (by decide) (by with_unfolding_all decide)

/-- C2: for every ticker processed by the risk engine (≥ 30 valid daily
returns): a zero annualized volatility yields a sharpe of exactly 0 (and
a reported sharpe_ratio of 0), a zero downside deviation yields a
sortino of exactly 0 (and a reported sortino_ratio of 0); otherwise each
ratio is the excess annualized return over the respective denominator. -/
theorem sharpe_sortino_division_policy (rets : List ℚ) (h30 : 30 ≤ rets.length) :
    ∃ r, calculate_risk_metrics rets = some r ∧
      (ann_volatility rets = 0 → sharpe rets = 0 ∧ r.sharpe_ratio = 0) ∧
      (ann_volatility rets ≠ 0 →
        sharpe rets = (excess_return rets : ℝ) / ann_volatility rets) ∧
      (downside_std rets = some 0 → sortino rets = 0 ∧ r.sortino_ratio = 0) ∧
      (∀ s : ℝ, downside_std rets = some s → s ≠ 0 →
        sortino rets = (excess_return rets : ℝ) / s) := by
  have hcalc : calculate_risk_metrics rets = some
      { sharpe_ratio := roundR 4 (sharpe rets)
        sortino_ratio := roundR 4 (sortino rets)
        max_drawdown := roundQ 6 (max_drawdown rets)
        var_95 := roundQ 6 (var_95 rets)
        annualized_return := roundQ 6 (ann_return rets)
        annualized_volatility := roundR 6 (ann_volatility rets) } := by
    unfold calculate_risk_metrics
    rw [if_neg (by omega)]
  refine ⟨_, hcalc, ?_, ?_, ?_, ?_⟩
  · intro hv
    have hs : sharpe rets = 0 := by
      unfold sharpe
      rw [hv]
      simp
    exact ⟨hs, by simp [hs, roundR_zero]⟩
  · intro hv
    have hnn : 0 ≤ ann_volatility rets :=
      mul_nonneg (Real.sqrt_nonneg _) (Real.sqrt_nonneg _)
    have hpos : 0 < ann_volatility rets := lt_of_le_of_ne hnn (Ne.symm hv)
    unfold sharpe
    rw [if_pos hpos]
  · intro hv
    have hs : sortino rets = 0 := by
      unfold sortino
      rw [hv]
      simp
    exact ⟨hs, by simp [hs, roundR_zero]⟩
  · intro s hv hs
    have hnn : 0 ≤ s := by
      unfold downside_std at hv
      split_ifs at hv with h2
      injection hv with hv'
      rw [← hv']
      exact mul_nonneg (Real.sqrt_nonneg _) (Real.sqrt_nonneg _)
    have hpos : 0 < s := lt_of_le_of_ne hnn (Ne.symm hs)
    unfold sortino
    rw [hv]
    simp [hpos]

/-- Witness for `sharpe_sortino_division_policy`: 30 zero returns (a
constant close price) give zero volatility and no downside returns. -/
theorem sharpe_sortino_division_policy_witness :
    ∃ r, calculate_risk_metrics (List.replicate 30 (0 : ℚ)) = some r ∧
      (ann_volatility (List.replicate 30 (0 : ℚ)) = 0 →
        sharpe (List.replicate 30 (0 : ℚ)) = 0 ∧ r.sharpe_ratio = 0) ∧
      (ann_volatility (List.replicate 30 (0 : ℚ)) ≠ 0 →
        sharpe (List.replicate 30 (0 : ℚ)) =
          (excess_return (List.replicate 30 (0 : ℚ)) : ℝ) /
            ann_volatility (List.replicate 30 (0 : ℚ))) ∧
      (downside_std (List.replicate 30 (0 : ℚ)) = some 0 →
        sortino (List.replicate 30 (0 : ℚ)) = 0 ∧ r.sortino_ratio = 0) ∧
      (∀ s : ℝ, downside_std (List.replicate 30 (0 : ℚ)) = some s → s ≠ 0 →
        sortino (List.replicate 30 (0 : ℚ)) =
          (excess_return (List.replicate 30 (0 : ℚ)) : ℝ) / s) :=
  sharpe_sortino_division_policy _ (by decide)

/-- C1 (amended): at a position where the 14-bar rolling average loss is
0, the computed `rsi_14` is 100 when the average gain is nonzero, but is
NaN (undefined) when the average gain is 0 as well (flat window: the
ratio is the float 0/0); every defined `rsi_14` value lies in [0, 100]. -/
theorem rsi_saturation_and_range (close : List ℚ) (i : ℕ) :
    (∀ g : ℚ, loss close i = PF.num 0 → gain close i = PF.num g → g ≠ 0 →
      rsi_14 close i = PF.num 100) ∧
    (loss close i = PF.num 0 → gain close i = PF.num 0 →
      rsi_14 close i = PF.nan) ∧
    (∀ v : ℚ, rsi_14 close i = PF.num v → 0 ≤ v ∧ v ≤ 100) := by
  refine ⟨?_, ?_, ?_⟩
  · intro g hl hg hne
    have hg0 : 0 ≤ g :=
      rollingMean_num_nonneg _ _ _ _ (gainSeries_nonneg close) hg
    have hgpos : 0 < g := lt_of_le_of_ne hg0 (Ne.symm hne)
    unfold rsi_14 rs
    rw [hg, hl]
    have h1 : PF.div (PF.num g) (PF.num 0) = PF.inf := by
      simp [PF.div, hne, hgpos]
    rw [h1]
    show PF.sub (PF.num 100) (PF.div (PF.num 100) (PF.add (PF.num 1) PF.inf)) =
      PF.num 100
    norm_num [PF.sub, PF.add, PF.neg, PF.div]
  · intro hl hg
    unfold rsi_14 rs
    rw [hg, hl]
    simp [PF.div, PF.add, PF.sub, PF.neg]
  · intro v hv
    unfold rsi_14 rs gain loss at hv
    rcases rollingMean_cases 14 (gainSeries close) i with hg | ⟨g, hg⟩ <;>
      rcases rollingMean_cases 14 (lossSeries close) i with hl | ⟨l, hl⟩ <;>
      rw [hg, hl] at hv
    · simp [PF.div, PF.add, PF.sub, PF.neg] at hv
    · simp [PF.div, PF.add, PF.sub, PF.neg] at hv
    · simp [PF.div, PF.add, PF.sub, PF.neg] at hv
    · have hg0 : 0 ≤ g :=
        rollingMean_num_nonneg _ _ _ _ (gainSeries_nonneg close) hg
      have hl0 : 0 ≤ l :=
        rollingMean_num_nonneg _ _ _ _ (lossSeries_nonneg close) hl
      by_cases hl' : l = 0
      · subst hl'
        by_cases hg' : g = 0
        · subst hg'
          simp [PF.div, PF.add, PF.sub, PF.neg] at hv
        · have hgpos : 0 < g := lt_of_le_of_ne hg0 (Ne.symm hg')
          have h1 : PF.div (PF.num g) (PF.num 0) = PF.inf := by
            simp [PF.div, hg', hgpos]
          rw [h1] at hv
          norm_num [PF.sub, PF.add, PF.neg, PF.div] at hv
          norm_num [← hv]
      · have hlpos : 0 < l := lt_of_le_of_ne hl0 (Ne.symm hl')
        have hr0 : 0 ≤ g / l := div_nonneg hg0 (le_of_lt hlpos)
        have hd : 0 < 1 + g / l := by linarith
        have e1 : PF.div (PF.num g) (PF.num l) = PF.num (g / l) := by
          simp [PF.div, hl']
        have e2 : PF.add (PF.num 1) (PF.num (g / l)) = PF.num (1 + g / l) := rfl
        have e3 : PF.div (PF.num 100) (PF.num (1 + g / l)) =
            PF.num (100 / (1 + g / l)) := by
          simp [PF.div, hd.ne']
        have e4 : PF.sub (PF.num 100) (PF.num (100 / (1 + g / l))) =
            PF.num (100 - 100 / (1 + g / l)) :=
          congrArg PF.num (by ring)
        rw [e1, e2, e3, e4] at hv
        injection hv with hv'
        have hq1 : 0 < 100 / (1 + g / l) := by positivity
        have hq2 : 100 / (1 + g / l) ≤ 100 :=
          div_le_self (by norm_num) (by linarith)
        constructor <;> linarith [hv']

/-- Witness for `rsi_saturation_and_range`: a strictly increasing 14-bar
close series has zero average loss and positive average gain, so RSI is
exactly 100; the value 100 satisfies the range bound. -/
theorem rsi_saturation_and_range_witness :
    rsi_14 [1, 2, 3, 4, 5, 6, 7, 8, 9, 10, 11, 12, 13, 14] 13 = PF.num 100 ∧
      (0 : ℚ) ≤ 100 ∧ (100 : ℚ) ≤ 100 :=
  ⟨(rsi_saturation_and_range [1, 2, 3, 4, 5, 6, 7, 8, 9, 10, 11, 12, 13, 14] 13).1
      (13 / 14)
      (by with_unfolding_all decide)
      (by with_unfolding_all decide)
      (by norm_num),
    (rsi_saturation_and_range [1, 2, 3, 4, 5, 6, 7, 8, 9, 10, 11, 12, 13, 14] 13).2.2
      100
      ((rsi_saturation_and_range [1, 2, 3, 4, 5, 6, 7, 8, 9, 10, 11, 12, 13, 14] 13).1
        (13 / 14)
        (by with_unfolding_all decide)
        (by with_unfolding_all decide)
        (by norm_num))⟩

/-- C1 counterexample: on a constant 14-bar close series the 14-bar
average loss at row 13 is 0, yet `rsi_14` there is NaN (the float 0/0),
not the claimed saturation value 100. -/
theorem rsi_flat_window_counterexample :
    loss (List.replicate 14 (100 : ℚ)) 13 = PF.num 0 ∧
      rsi_14 (List.replicate 14 (100 : ℚ)) 13 = PF.nan := by
  with_unfolding_all decide

/-! ### Helper lemmas: signal detector -/

/-- Membership in a conditional singleton. -/
theorem mem_ite_nil {c : Prop} [Decidable c] {x y : Signal} :
    (x ∈ if c then [y] else []) ↔ c ∧ x = y := by
  split_ifs with h <;> simp [h]

/-- `optLt` holds iff both sides are defined and strictly ordered. -/
theorem optLt_eq_true_iff {a b : Option ℚ} :
    optLt a b = true ↔ ∃ x y, a = some x ∧ b = some y ∧ x < y := by
  cases a <;> cases b <;> simp [optLt]

/-- `optLe` holds iff both sides are defined and ordered. -/
theorem optLe_eq_true_iff {a b : Option ℚ} :
    optLe a b = true ↔ ∃ x y, a = some x ∧ b = some y ∧ x ≤ y := by
  cases a <;> cases b <;> simp [optLe]

@[simp]
theorem mkSignal_type (t : String) (l : IndRow) (ty : SigType) :
    (mkSignal t l ty).signal_type = ty := by
  cases ty <;> rfl

/-- A record is produced by the rule battery iff one of the eight rules
fires and the record is that rule's record. -/
theorem mem_ruleSignals {t : String} {l p : IndRow} {s : Signal} :
    s ∈ ruleSignals t l p ↔
      (goldenCond l p = true ∧ s = mkSignal t l .GOLDEN_CROSS) ∨
      (deathCond l p = true ∧ s = mkSignal t l .DEATH_CROSS) ∨
      (rsiOversoldCond l = true ∧ s = mkSignal t l .RSI_OVERSOLD) ∨
      (rsiOverboughtCond l = true ∧ s = mkSignal t l .RSI_OVERBOUGHT) ∨
      (macdBullishCond l p = true ∧ s = mkSignal t l .MACD_BULLISH) ∨
      (macdBearishCond l p = true ∧ s = mkSignal t l .MACD_BEARISH) ∨
      (bbOversoldCond l = true ∧ s = mkSignal t l .BB_OVERSOLD) ∨
      (bbOverboughtCond l = true ∧ s = mkSignal t l .BB_OVERBOUGHT) := by
  simp only [ruleSignals, List.mem_append, mem_ite_nil, or_assoc]

/-- The rule battery is empty iff no rule fires. -/
theorem ruleSignals_eq_nil_iff {t : String} {l p : IndRow} :
    ruleSignals t l p = [] ↔
      goldenCond l p = false ∧ deathCond l p = false ∧
      rsiOversoldCond l = false ∧ rsiOverboughtCond l = false ∧
      macdBullishCond l p = false ∧ macdBearishCond l p = false ∧
      bbOversoldCond l = false ∧ bbOverboughtCond l = false := by
  simp only [ruleSignals, List.append_eq_nil, ite_eq_right_iff,
    List.cons_ne_nil, imp_false, Bool.not_eq_true, and_assoc]

/-- Every record of the rule battery is some rule's record for a
non-NEUTRAL signal type. -/
theorem mem_ruleSignals_shape {t : String} {l p : IndRow} {s : Signal}
    (hs : s ∈ ruleSignals t l p) :
    ∃ ty : SigType, ty ≠ SigType.NEUTRAL ∧ s = mkSignal t l ty := by
  rcases mem_ruleSignals.mp hs with
    ⟨g1, e1⟩ | ⟨g2, e2⟩ | ⟨g3, e3⟩ | ⟨g4, e4⟩ |
    ⟨g5, e5⟩ | ⟨g6, e6⟩ | ⟨g7, e7⟩ | ⟨g8, e8⟩
  · exact ⟨.GOLDEN_CROSS, by decide, e1⟩
  · exact ⟨.DEATH_CROSS, by decide, e2⟩
  · exact ⟨.RSI_OVERSOLD, by decide, e3⟩
  · exact ⟨.RSI_OVERBOUGHT, by decide, e4⟩
  · exact ⟨.MACD_BULLISH, by decide, e5⟩
  · exact ⟨.MACD_BEARISH, by decide, e6⟩
  · exact ⟨.BB_OVERSOLD, by decide, e7⟩
  · exact ⟨.BB_OVERBOUGHT, by decide, e8⟩

/-- On an input with at least two rows, the detector output is the rule
battery on (latest, previous), NEUTRAL-defaulted when empty. -/
theorem generate_signals_eq (t : String) (rest : List IndRow) (p l : IndRow) :
    generate_signals_for_ticker t (rest ++ [p, l]) =
      if (ruleSignals t l p).isEmpty then [mkSignal t l .NEUTRAL]
      else ruleSignals t l p := by
  unfold generate_signals_for_ticker
  have h : (rest ++ [p, l]).reverse = l :: p :: rest.reverse := by
    simp
  rw [h]

/-- A non-NEUTRAL signal type appears in the detector output iff its
rule's condition holds on (latest, previous). -/
theorem signal_type_mem_iff (t : String) (rest : List IndRow) (p l : IndRow)
    (ty : SigType) (hty : ty ≠ SigType.NEUTRAL) :
    (ty ∈ (generate_signals_for_ticker t (rest ++ [p, l])).map Signal.signal_type) ↔
      condOf ty l p = true := by
  rw [generate_signals_eq]
  by_cases hE : (ruleSignals t l p).isEmpty
  · rw [if_pos hE]
    have hnil : ruleSignals t l p = [] := List.isEmpty_iff.mp hE
    have hc := ruleSignals_eq_nil_iff.mp hnil
    constructor
    · intro h
      simp only [List.map_cons, List.map_nil, List.mem_singleton, mkSignal_type] at h
      exact absurd h hty
    · intro h
      exfalso
      cases ty <;> simp_all [condOf]
  · rw [if_neg hE, List.mem_map]
    constructor
    · rintro ⟨s, hs, rfl⟩
      rcases mem_ruleSignals.mp hs with
        ⟨c1, rfl⟩ | ⟨c2, rfl⟩ | ⟨c3, rfl⟩ | ⟨c4, rfl⟩ |
        ⟨c5, rfl⟩ | ⟨c6, rfl⟩ | ⟨c7, rfl⟩ | ⟨c8, rfl⟩
      · simpa [condOf] using c1
      · simpa [condOf] using c2
      · simpa [condOf] using c3
      · simpa [condOf] using c4
      · simpa [condOf] using c5
      · simpa [condOf] using c6
      · simpa [condOf] using c7
      · simpa [condOf] using c8
    · intro hc
      cases ty with
      | GOLDEN_CROSS =>
        exact ⟨mkSignal t l .GOLDEN_CROSS,
          mem_ruleSignals.mpr (Or.inl ⟨hc, rfl⟩), by simp⟩
      | DEATH_CROSS =>
        exact ⟨mkSignal t l .DEATH_CROSS,
          mem_ruleSignals.mpr (Or.inr (Or.inl ⟨hc, rfl⟩)), by simp⟩
      | RSI_OVERSOLD =>
        exact ⟨mkSignal t l .RSI_OVERSOLD,
          mem_ruleSignals.mpr (Or.inr (Or.inr (Or.inl ⟨hc, rfl⟩))), by simp⟩
      | RSI_OVERBOUGHT =>
        exact ⟨mkSignal t l .RSI_OVERBOUGHT,
          mem_ruleSignals.mpr (Or.inr (Or.inr (Or.inr (Or.inl ⟨hc, rfl⟩)))), by simp⟩
      | MACD_BULLISH =>
        exact ⟨mkSignal t l .MACD_BULLISH,
          mem_ruleSignals.mpr
            (Or.inr (Or.inr (Or.inr (Or.inr (Or.inl ⟨hc, rfl⟩))))), by simp⟩
      | MACD_BEARISH =>
        exact ⟨mkSignal t l .MACD_BEARISH,
          mem_ruleSignals.mpr
            (Or.inr (Or.inr (Or.inr (Or.inr (Or.inr (Or.inl ⟨hc, rfl⟩)))))), by simp⟩
      | BB_OVERSOLD =>
        exact ⟨mkSignal t l .BB_OVERSOLD,
          mem_ruleSignals.mpr
            (Or.inr (Or.inr (Or.inr (Or.inr (Or.inr (Or.inr (Or.inl ⟨hc, rfl⟩))))))),
          by simp⟩
      | BB_OVERBOUGHT =>
        exact ⟨mkSignal t l .BB_OVERBOUGHT,
          mem_ruleSignals.mpr
            (Or.inr (Or.inr (Or.inr (Or.inr (Or.inr (Or.inr (Or.inr ⟨hc, rfl⟩))))))),
          by simp⟩
      | NEUTRAL => simp [condOf] at hc

/-- GOLDEN_CROSS and DEATH_CROSS cannot both fire on the same rows. -/
theorem golden_death_not_both {l p : IndRow} :
    ¬(goldenCond l p = true ∧ deathCond l p = true) := by
  rintro ⟨h1, h2⟩
  unfold goldenCond at h1
  unfold deathCond at h2
  rw [Bool.and_eq_true] at h1 h2
  rcases optLt_eq_true_iff.mp h1.1 with ⟨x, y, hx, hy, hxy⟩
  rcases optLt_eq_true_iff.mp h2.1 with ⟨u, v, hu, hv, huv⟩
  have e1 : y = u := by
    have := hy.symm.trans hu
    injection this
  have e2 : x = v := by
    have := hx.symm.trans hv
    injection this
  subst e1
  subst e2
  linarith

/-- RSI_OVERSOLD and RSI_OVERBOUGHT cannot both fire on the same row. -/
theorem rsi_not_both {l : IndRow} :
    ¬(rsiOversoldCond l = true ∧ rsiOverboughtCond l = true) := by
  rintro ⟨h1, h2⟩
  unfold rsiOversoldCond at h1
  unfold rsiOverboughtCond at h2
  rw [Bool.and_eq_true] at h1 h2
  rcases optLt_eq_true_iff.mp h1.2 with ⟨x, y, hx, hy, hxy⟩
  rcases optLt_eq_true_iff.mp h2.2 with ⟨u, v, hu, hv, huv⟩
  have e1 : y = 30 := by injection hy.symm
  have e2 : u = 70 := by injection hu.symm
  have e3 : x = v := by
    have := hx.symm.trans hv
    injection this
  subst e1
  subst e2
  subst e3
  linarith

/-- MACD_BULLISH and MACD_BEARISH cannot both fire on the same rows. -/
theorem macd_not_both {l p : IndRow} :
    ¬(macdBullishCond l p = true ∧ macdBearishCond l p = true) := by
  rintro ⟨h1, h2⟩
  unfold macdBullishCond at h1
  unfold macdBearishCond at h2
  simp only [Bool.and_eq_true] at h1 h2
  rcases optLt_eq_true_iff.mp h1.1.2 with ⟨x, y, hx, hy, hxy⟩
  rcases optLt_eq_true_iff.mp h2.1.2 with ⟨u, v, hu, hv, huv⟩
  have e1 : y = u := by
    have := hy.symm.trans hu
    injection this
  have e2 : x = v := by
    have := hx.symm.trans hv
    injection this
  subst e1
  subst e2
  linarith

/-- Given a coherent Bollinger band (`bb_lower ≤ bb_upper`), BB_OVERSOLD
and BB_OVERBOUGHT cannot both fire on the same row. -/
theorem bb_not_both {l : IndRow}
    (hbb : ∀ lo hi : ℚ, l.bb_lower = some lo → l.bb_upper = some hi → lo ≤ hi) :
    ¬(bbOversoldCond l = true ∧ bbOverboughtCond l = true) := by
  rintro ⟨h1, h2⟩
  unfold bbOversoldCond at h1
  unfold bbOverboughtCond at h2
  rw [Bool.and_eq_true] at h1 h2
  rcases optLt_eq_true_iff.mp h1.2 with ⟨x, y, hx, hy, hxy⟩
  rcases optLt_eq_true_iff.mp h2.2 with ⟨u, v, hu, hv, huv⟩
  have e1 : x = l.close := by injection hx.symm
  have e2 : v = l.close := by injection hv.symm
  have e3 : y ≤ u := hbb y u hy hu
  subst e1
  subst e2
  linarith

/-- A conditional singleton together with another conditional singleton
contributes at most one record when the conditions exclude each other. -/
theorem pair_ite_length_le_one {c d : Bool} (x y : Signal)
    (h : ¬(c = true ∧ d = true)) :
    (if c = true then [x] else []).length + (if d = true then [y] else []).length ≤ 1 := by
  cases c <;> cases d <;> simp_all

/-- With a coherent Bollinger band, at most 4 of the 8 rules fire. -/
theorem ruleSignals_length_le_four {t : String} {l p : IndRow}
    (hbb : ∀ lo hi : ℚ, l.bb_lower = some lo → l.bb_upper = some hi → lo ≤ hi) :
    (ruleSignals t l p).length ≤ 4 := by
  have h12 := pair_ite_length_le_one (c := goldenCond l p) (d := deathCond l p)
    (mkSignal t l .GOLDEN_CROSS) (mkSignal t l .DEATH_CROSS) golden_death_not_both
  have h34 := pair_ite_length_le_one (c := rsiOversoldCond l) (d := rsiOverboughtCond l)
    (mkSignal t l .RSI_OVERSOLD) (mkSignal t l .RSI_OVERBOUGHT) rsi_not_both
  have h56 := pair_ite_length_le_one (c := macdBullishCond l p) (d := macdBearishCond l p)
    (mkSignal t l .MACD_BULLISH) (mkSignal t l .MACD_BEARISH) macd_not_both
  have h78 := pair_ite_length_le_one (c := bbOversoldCond l) (d := bbOverboughtCond l)
    (mkSignal t l .BB_OVERSOLD) (mkSignal t l .BB_OVERBOUGHT) (bb_not_both hbb)
  simp only [ruleSignals, List.length_append]
  omega

/-! ### Claim theorems: signal detector -/

/-- C5: the signal detector emits no records for a ticker with fewer
than 2 indicator rows, and exactly one NEUTRAL/NEUTRAL record when at
least 2 rows exist and none of the eight rules fires. -/
theorem signals_two_rows_and_neutral_default (t : String) :
    (∀ rows : List IndRow, rows.length < 2 →
      generate_signals_for_ticker t rows = []) ∧
    (∀ (rest : List IndRow) (p l : IndRow),
      goldenCond l p = false → deathCond l p = false →
      rsiOversoldCond l = false → rsiOverboughtCond l = false →
      macdBullishCond l p = false → macdBearishCond l p = false →
      bbOversoldCond l = false → bbOverboughtCond l = false →
      generate_signals_for_ticker t (rest ++ [p, l]) =
        [mkSignal t l .NEUTRAL]) := by
  constructor
  · intro rows h
    rcases rows with _ | ⟨a, _ | ⟨b, tl⟩⟩
    · rfl
    · rfl
    · exfalso
      simp only [List.length_cons] at h
      omega
  · intro rest p l h1 h2 h3 h4 h5 h6 h7 h8
    rw [generate_signals_eq]
    have hr : ruleSignals t l p = [] :=
      ruleSignals_eq_nil_iff.mpr ⟨h1, h2, h3, h4, h5, h6, h7, h8⟩
    rw [hr]
    rfl

/-- Witness for `signals_two_rows_and_neutral_default`: a single row
yields no signals; two all-NaN rows fire no rule and yield exactly the
NEUTRAL record. -/
theorem signals_two_rows_and_neutral_default_witness :
    generate_signals_for_ticker "A" [noRow] = [] ∧
      generate_signals_for_ticker "A" ([] ++ [noRow, noRow]) =
        [mkSignal "A" noRow .NEUTRAL] :=
  ⟨(signals_two_rows_and_neutral_default "A").1 [noRow] (by decide),
    (signals_two_rows_and_neutral_default "A").2 [] noRow noRow
      rfl rfl rfl rfl rfl rfl rfl rfl⟩

/-- C6: GOLDEN_CROSS fires iff `sma_50 > sma_200` on the latest row and
`sma_50 ≤ sma_200` on the previous row (all four values defined), and
symmetrically for DEATH_CROSS; neither fires when the strict ordering
was already established on the previous bar. -/
theorem golden_death_cross_transition (t : String) (rest : List IndRow)
    (p l : IndRow) :
    (SigType.GOLDEN_CROSS ∈
        (generate_signals_for_ticker t (rest ++ [p, l])).map Signal.signal_type ↔
      (∃ a b c d : ℚ, l.sma_50 = some a ∧ l.sma_200 = some b ∧
        p.sma_50 = some c ∧ p.sma_200 = some d ∧ b < a ∧ c ≤ d)) ∧
    (SigType.DEATH_CROSS ∈
        (generate_signals_for_ticker t (rest ++ [p, l])).map Signal.signal_type ↔
      (∃ a b c d : ℚ, l.sma_50 = some a ∧ l.sma_200 = some b ∧
        p.sma_50 = some c ∧ p.sma_200 = some d ∧ a < b ∧ d ≤ c)) ∧
    (∀ a b c d : ℚ, l.sma_50 = some a → l.sma_200 = some b →
      p.sma_50 = some c → p.sma_200 = some d →
      ((b < a ∧ d < c) ∨ (a < b ∧ c < d)) →
      SigType.GOLDEN_CROSS ∉
        (generate_signals_for_ticker t (rest ++ [p, l])).map Signal.signal_type ∧
      SigType.DEATH_CROSS ∉
        (generate_signals_for_ticker t (rest ++ [p, l])).map Signal.signal_type) := by
  have hgold : (SigType.GOLDEN_CROSS ∈
      (generate_signals_for_ticker t (rest ++ [p, l])).map Signal.signal_type) ↔
      (∃ a b c d : ℚ, l.sma_50 = some a ∧ l.sma_200 = some b ∧
        p.sma_50 = some c ∧ p.sma_200 = some d ∧ b < a ∧ c ≤ d) := by
    rw [signal_type_mem_iff t rest p l _ (by decide)]
    show goldenCond l p = true ↔ _
    unfold goldenCond
    rw [Bool.and_eq_true, optLt_eq_true_iff, optLe_eq_true_iff]
    constructor
    · rintro ⟨⟨x, y, hx, hy, hxy⟩, ⟨u, v, hu, hv, huv⟩⟩
      exact ⟨y, x, u, v, hy, hx, hu, hv, hxy, huv⟩
    · rintro ⟨a, b, c, d, ha, hb, hc, hd, hlt, hle⟩
      exact ⟨⟨b, a, hb, ha, hlt⟩, ⟨c, d, hc, hd, hle⟩⟩
  have hdeath : (SigType.DEATH_CROSS ∈
      (generate_signals_for_ticker t (rest ++ [p, l])).map Signal.signal_type) ↔
      (∃ a b c d : ℚ, l.sma_50 = some a ∧ l.sma_200 = some b ∧
        p.sma_50 = some c ∧ p.sma_200 = some d ∧ a < b ∧ d ≤ c) := by
    rw [signal_type_mem_iff t rest p l _ (by decide)]
    show deathCond l p = true ↔ _
    unfold deathCond
    rw [Bool.and_eq_true, optLt_eq_true_iff, optLe_eq_true_iff]
    constructor
    · rintro ⟨⟨x, y, hx, hy, hxy⟩, ⟨u, v, hu, hv, huv⟩⟩
      exact ⟨x, y, v, u, hx, hy, hv, hu, hxy, huv⟩
    · rintro ⟨a, b, c, d, ha, hb, hc, hd, hlt, hle⟩
      exact ⟨⟨a, b, ha, hb, hlt⟩, ⟨d, c, hd, hc, hle⟩⟩
  refine ⟨hgold, hdeath, ?_⟩
  intro a b c d ha hb hc hd hord
  constructor
  · rw [hgold]
    rintro ⟨a', b', c', d', ha', hb', hc', hd', hlt, hle⟩
    have e1 : a' = a := by
      have := ha'.symm.trans ha
      injection this
    have e2 : b' = b := by
      have := hb'.symm.trans hb
      injection this
    have e3 : c' = c := by
      have := hc'.symm.trans hc
      injection this
    have e4 : d' = d := by
      have := hd'.symm.trans hd
      injection this
    subst e1
    subst e2
    subst e3
    subst e4
    rcases hord with ⟨u1, u2⟩ | ⟨u1, u2⟩ <;> linarith
  · rw [hdeath]
    rintro ⟨a', b', c', d', ha', hb', hc', hd', hlt, hle⟩
    have e1 : a' = a := by
      have := ha'.symm.trans ha
      injection this
    have e2 : b' = b := by
      have := hb'.symm.trans hb
      injection this
    have e3 : c' = c := by
      have := hc'.symm.trans hc
      injection this
    have e4 : d' = d := by
      have := hd'.symm.trans hd
      injection this
    subst e1
    subst e2
    subst e3
    subst e4
    rcases hord with ⟨u1, u2⟩ | ⟨u1, u2⟩ <;> linarith

/-- Witness for `golden_death_cross_transition`: with
previous (sma_50, sma_200) = (1, 2) and latest (3, 2) the golden cross
fires, and once the upward ordering is established — previous (3, 2),
latest (3, 2) — neither cross fires. -/
theorem golden_death_cross_transition_witness :
    SigType.GOLDEN_CROSS ∈
      (generate_signals_for_ticker "A"
        ([] ++ [crossPrevRow, crossLatestRow])).map Signal.signal_type ∧
    SigType.GOLDEN_CROSS ∉
      (generate_signals_for_ticker "A"
        ([] ++ [crossLatestRow, crossLatestRow])).map Signal.signal_type ∧
    SigType.DEATH_CROSS ∉
      (generate_signals_for_ticker "A"
        ([] ++ [crossLatestRow, crossLatestRow])).map Signal.signal_type :=
  ⟨(golden_death_cross_transition "A" [] crossPrevRow crossLatestRow).1.mpr
      ⟨3, 2, 1, 2, rfl, rfl, rfl, rfl, by norm_num, by norm_num⟩,
    ((golden_death_cross_transition "A" [] crossLatestRow crossLatestRow).2.2
        3 2 3 2 rfl rfl rfl rfl (Or.inl ⟨by norm_num, by norm_num⟩)).1,
    ((golden_death_cross_transition "A" [] crossLatestRow crossLatestRow).2.2
        3 2 3 2 rfl rfl rfl rfl (Or.inl ⟨by norm_num, by norm_num⟩)).2⟩

/-- C9: per ticker, opposing rule pairs never both fire (the Bollinger
pair under a coherent band `bb_lower ≤ bb_upper`), so at most 4
non-NEUTRAL records are emitted, and a NEUTRAL record only ever appears
alone. -/
theorem opposing_pairs_and_neutral_alone (t : String) (rest : List IndRow)
    (p l : IndRow)
    (hbb : ∀ lo hi : ℚ, l.bb_lower = some lo → l.bb_upper = some hi → lo ≤ hi) :
    ¬(SigType.GOLDEN_CROSS ∈
        (generate_signals_for_ticker t (rest ++ [p, l])).map Signal.signal_type ∧
      SigType.DEATH_CROSS ∈
        (generate_signals_for_ticker t (rest ++ [p, l])).map Signal.signal_type) ∧
    ¬(SigType.RSI_OVERSOLD ∈
        (generate_signals_for_ticker t (rest ++ [p, l])).map Signal.signal_type ∧
      SigType.RSI_OVERBOUGHT ∈
        (generate_signals_for_ticker t (rest ++ [p, l])).map Signal.signal_type) ∧
    ¬(SigType.MACD_BULLISH ∈
        (generate_signals_for_ticker t (rest ++ [p, l])).map Signal.signal_type ∧
      SigType.MACD_BEARISH ∈
        (generate_signals_for_ticker t (rest ++ [p, l])).map Signal.signal_type) ∧
    ¬(SigType.BB_OVERSOLD ∈
        (generate_signals_for_ticker t (rest ++ [p, l])).map Signal.signal_type ∧
      SigType.BB_OVERBOUGHT ∈
        (generate_signals_for_ticker t (rest ++ [p, l])).map Signal.signal_type) ∧
    ((generate_signals_for_ticker t (rest ++ [p, l])).filter
        (fun s => s.signal_type != SigType.NEUTRAL)).length ≤ 4 ∧
    (SigType.NEUTRAL ∈
        (generate_signals_for_ticker t (rest ++ [p, l])).map Signal.signal_type →
      generate_signals_for_ticker t (rest ++ [p, l]) =
        [mkSignal t l .NEUTRAL]) := by
  refine ⟨?_, ?_, ?_, ?_, ?_, ?_⟩
  · rintro ⟨hg, hd⟩
    rw [signal_type_mem_iff t rest p l _ (by decide)] at hg hd
    exact golden_death_not_both ⟨hg, hd⟩
  · rintro ⟨hg, hd⟩
    rw [signal_type_mem_iff t rest p l _ (by decide)] at hg hd
    exact rsi_not_both ⟨hg, hd⟩
  · rintro ⟨hg, hd⟩
    rw [signal_type_mem_iff t rest p l _ (by decide)] at hg hd
    exact macd_not_both ⟨hg, hd⟩
  · rintro ⟨hg, hd⟩
    rw [signal_type_mem_iff t rest p l _ (by decide)] at hg hd
    exact bb_not_both hbb ⟨hg, hd⟩
  · rw [generate_signals_eq]
    split_ifs with hE
    · simp [mkSignal]
    · exact le_trans (List.length_filter_le _ _) (ruleSignals_length_le_four hbb)
  · intro h
    rw [generate_signals_eq] at h ⊢
    split_ifs at h ⊢ with hE
    · rfl
    · exfalso
      rw [List.mem_map] at h
      rcases h with ⟨s, hs, hty⟩
      obtain ⟨ty, htyne, rfl⟩ := mem_ruleSignals_shape hs
      rw [mkSignal_type] at hty
      exact htyne hty

/-- Witness for `opposing_pairs_and_neutral_alone` on two all-NaN rows
(the band hypothesis holds vacuously). -/
theorem opposing_pairs_and_neutral_alone_witness :
    ¬(SigType.GOLDEN_CROSS ∈
        (generate_signals_for_ticker "A" ([] ++ [noRow, noRow])).map Signal.signal_type ∧
      SigType.DEATH_CROSS ∈
        (generate_signals_for_ticker "A" ([] ++ [noRow, noRow])).map Signal.signal_type) ∧
    ¬(SigType.RSI_OVERSOLD ∈
        (generate_signals_for_ticker "A" ([] ++ [noRow, noRow])).map Signal.signal_type ∧
      SigType.RSI_OVERBOUGHT ∈
        (generate_signals_for_ticker "A" ([] ++ [noRow, noRow])).map Signal.signal_type) ∧
    ¬(SigType.MACD_BULLISH ∈
        (generate_signals_for_ticker "A" ([] ++ [noRow, noRow])).map Signal.signal_type ∧
      SigType.MACD_BEARISH ∈
        (generate_signals_for_ticker "A" ([] ++ [noRow, noRow])).map Signal.signal_type) ∧
    ¬(SigType.BB_OVERSOLD ∈
        (generate_signals_for_ticker "A" ([] ++ [noRow, noRow])).map Signal.signal_type ∧
      SigType.BB_OVERBOUGHT ∈
        (generate_signals_for_ticker "A" ([] ++ [noRow, noRow])).map Signal.signal_type) ∧
    ((generate_signals_for_ticker "A" ([] ++ [noRow, noRow])).filter
        (fun s => s.signal_type != SigType.NEUTRAL)).length ≤ 4 ∧
    (SigType.NEUTRAL ∈
        (generate_signals_for_ticker "A" ([] ++ [noRow, noRow])).map Signal.signal_type →
      generate_signals_for_ticker "A" ([] ++ [noRow, noRow]) =
        [mkSignal "A" noRow .NEUTRAL]) :=
  opposing_pairs_and_neutral_alone "A" [] noRow noRow
    (by intro lo hi h _; cases h)

/-- C8 (amended): every record the detector emits carries its rule's
fixed description template, with the RSI value rendered to one decimal
place and the close price to two decimal places. -/
theorem descriptions_match_templates (t : String) (rest : List IndRow)
    (p l : IndRow) :
    ∀ s ∈ generate_signals_for_ticker t (rest ++ [p, l]),
      s.description = descrTemplate l s.signal_type := by
  intro s hs
  rw [generate_signals_eq] at hs
  split_ifs at hs with hE
  · rw [List.mem_singleton] at hs
    subst hs
    rfl
  · obtain ⟨ty, -, rfl⟩ := mem_ruleSignals_shape hs
    cases ty <;> rfl

/-- Witness for `descriptions_match_templates`: the Bollinger oversold
record emitted on `bbRow` carries its template. -/
theorem descriptions_match_templates_witness :
    (mkSignal "A" bbRow .BB_OVERSOLD).description =
      descrTemplate bbRow (mkSignal "A" bbRow .BB_OVERSOLD).signal_type :=
  descriptions_match_templates "A" [] noRow bbRow
    (mkSignal "A" bbRow .BB_OVERSOLD) (by with_unfolding_all decide)

/-- C8 counterexample: on `bbRow` (close 5.37 < lower band 6) the
emitted description renders the close price with two decimal places
("5.37"), not one: it differs from the one-decimal rendering. -/
theorem close_rendered_two_decimals_counterexample :
    (generate_signals_for_ticker "A" [noRow, bbRow]).map Signal.description =
      ["Price (5.37) below lower Bollinger Band - Potential bounce"] ∧
      fmtFixed 2 bbRow.close = "5.37" ∧
      fmtFixed 1 bbRow.close = "5.4" ∧
      "Price (5.37) below lower Bollinger Band - Potential bounce" ≠
        "Price (" ++ fmtFixed 1 bbRow.close ++
          ") below lower Bollinger Band - Potential bounce" := by
  with_unfolding_all decide

/-! ### Claim theorems: value at risk -/

/-- In an ascending-sorted list whose first `k` positions are within the
non-positive prefix (at least `k` non-positive entries exist), every
entry at index `j < k` is non-positive. -/
theorem sorted_getD_nonpos (s : List ℚ)
    (hs : List.Pairwise (fun a b : ℚ => a ≤ b) s) :
    ∀ j : ℕ, j < (s.filter (fun x => decide (x ≤ 0))).length → s.getD j 0 ≤ 0 := by
  induction s with
  | nil =>
    intro j hj
    simp at hj
  | cons a t ih =>
    rw [List.pairwise_cons] at hs
    intro j hj
    by_cases ha : a ≤ 0
    · rw [List.filter_cons_of_pos (by simpa using ha)] at hj
      cases j with
      | zero => simpa using ha
      | succ j' =>
        simp only [List.length_cons] at hj
        have := ih hs.2 j' (by omega)
        simpa using this
    · have hft : t.filter (fun x => decide (x ≤ 0)) = [] := by
        rw [List.filter_eq_nil_iff]
        intro x hx
        simp only [decide_eq_true_eq]
        intro hc
        exact ha (le_trans (hs.1 x hx) hc)
      rw [List.filter_cons_of_neg (by simpa using ha), hft] at hj
      simp at hj

/-- C7 (amended): for a return series of `n ≥ 30` observations in which
at least `⌊0.05·(n−1)⌋ + 2` returns are ≤ 0, the computed `var_95` (the
linearly-interpolated 5th percentile) is ≤ 0.  (One negative return is
not enough: the interpolation point lies between the second and third
order statistics.) -/
theorem var95_nonpos_of_enough_nonpositive (rets : List ℚ)
    (h30 : 30 ≤ rets.length)
    (hneg : (⌊((rets.length : ℚ) - 1) * (0.05 : ℚ)⌋).toNat + 2 ≤
      (rets.filter (fun x => decide (x ≤ 0))).length) :
    var_95 rets ≤ 0 := by
  unfold var_95 quantile quantileHi quantileLo quantilePos sortedAsc
  set s := rets.mergeSort (fun a b => decide (a ≤ b)) with hs_def
  set q : ℚ := ((rets.length : ℚ) - 1) * 0.05 with hq_def
  set i : ℕ := (⌊q⌋).toNat with hi_def
  have hsorted : List.Pairwise (fun a b : ℚ => a ≤ b) s := by
    have htrans : ∀ a b c : ℚ, decide (a ≤ b) = true → decide (b ≤ c) = true →
        decide (a ≤ c) = true := fun a b c hab hbc =>
      decide_eq_true (le_trans (of_decide_eq_true hab) (of_decide_eq_true hbc))
    have htotal : ∀ a b : ℚ, (decide (a ≤ b) || decide (b ≤ a)) = true := by
      intro a b
      rcases le_total a b with h | h <;> simp [h]
    have hpsort := List.sorted_mergeSort htrans htotal rets
    exact hpsort.imp (fun h => of_decide_eq_true h)
  have hperm : s.Perm rets := List.mergeSort_perm rets _
  have hlen : s.length = rets.length := hperm.length_eq
  have hfilt : (s.filter (fun x => decide (x ≤ 0))).length =
      (rets.filter (fun x => decide (x ≤ 0))).length :=
    (hperm.filter _).length_eq
  have hn : (30 : ℚ) ≤ (rets.length : ℚ) := by exact_mod_cast h30
  have hq0 : 0 ≤ q := by
    rw [hq_def]
    apply mul_nonneg (by linarith) (by norm_num)
  have hfl0 : 0 ≤ ⌊q⌋ := Int.floor_nonneg.mpr hq0
  have hiq : ((i : ℚ)) = (⌊q⌋ : ℚ) := by
    rw [hi_def]
    exact_mod_cast Int.toNat_of_nonneg hfl0
  have hfrac0 : 0 ≤ q - (i : ℚ) := by
    rw [hiq]
    exact sub_nonneg.mpr (Int.floor_le q)
  have hfrac1 : q - (i : ℚ) < 1 := by
    rw [hiq]
    have := Int.lt_floor_add_one q
    linarith
  have hkcount : i + 2 ≤ (s.filter (fun x => decide (x ≤ 0))).length := by
    rw [hfilt]
    exact hneg
  have hcle : (s.filter (fun x => decide (x ≤ 0))).length ≤ s.length :=
    List.length_filter_le _ _
  have hi1 : i + 1 < s.length := by omega
  have hi0 : i < s.length := by omega
  have hlo : s.getD i 0 ≤ 0 := sorted_getD_nonpos s hsorted i (by omega)
  have hhi : s.getD (i + 1) 0 ≤ 0 := sorted_getD_nonpos s hsorted (i + 1) (by omega)
  have hdef : s.getD (i + 1) (s.getD i 0) = s.getD (i + 1) 0 := by
    simp only [List.getD_eq_getElem?_getD, List.getElem?_eq_getElem hi1,
      Option.getD_some]
  rw [hdef]
  nlinarith [mul_nonneg hfrac0 (neg_nonneg.mpr hhi),
    mul_nonneg (sub_nonneg.mpr hfrac1.le) (neg_nonneg.mpr hlo)]

/-- Witness for `var95_nonpos_of_enough_nonpositive`: 3 of 30 returns
non-positive (⌊0.05·29⌋ + 2 = 3) give a non-positive 5th percentile. -/
theorem var95_nonpos_of_enough_nonpositive_witness :
    var_95 (List.replicate 3 (-1 / 100 : ℚ) ++ List.replicate 27 (1 / 100 : ℚ)) ≤ 0 :=
  var95_nonpos_of_enough_nonpositive _ (by decide) (by with_unfolding_all decide)

/-- C7 counterexample: 30 valid returns, one of them negative, yet the
5th percentile interpolates between the second and third order
statistics (both 0.01) and `var_95 = 0.01 > 0`. -/
theorem var95_single_negative_counterexample :
    ((-1 / 50 : ℚ) :: List.replicate 29 (1 / 100 : ℚ)).length = 30 ∧
      (-1 / 50 : ℚ) ∈ ((-1 / 50 : ℚ) :: List.replicate 29 (1 / 100 : ℚ)) ∧
      (-1 / 50 : ℚ) < 0 ∧
      var_95 ((-1 / 50 : ℚ) :: List.replicate 29 (1 / 100 : ℚ)) = 1 / 100 ∧
      (0 : ℚ) < 1 / 100 := by
  with_unfolding_all decide

end StockAnalytics
